import Mathlib

/-!
Verification development for the go-proxyproto package (protocol.go): a
shallow embedding of the PROXY protocol (version 1) header detection and
connection decoration, together with theorems settling the specification's
claims against it.

Bytes are modelled as `Char` (the header grammar is ASCII; payload bytes are
arbitrary characters). A connection's incoming stream is a finite list of
bytes followed by a marker saying what the next blocking access would
observe: end of stream, or an elapsed read deadline.
-/

namespace ProxyProto

/-- What the byte source reports once its listed bytes are exhausted:
`eof` for end of stream, `timeout` for an elapsed read deadline
(only possible when a header-read timeout is configured). -/
inductive Tail
  | eof
  | timeout
deriving DecidableEq

/-- A peekable, line-readable byte source: the `bufio.Reader` view of the
underlying connection. `data` holds the bytes still unread. -/
structure Source where
  data : List Char
  tail : Tail
deriving DecidableEq

/-- The `"PROXY "` signature, the `prefix` variable of protocol.go. -/
def sigChars : List Char := ['P', 'R', 'O', 'X', 'Y', ' ']

/-- The errors of protocol.go, one constructor per distinct error value:
the raw io errors, the two `fmt.Errorf` wrappers, and each parse error,
carrying the text the source formats into the message. `connClosedRead`
is the transport error a read on a closed connection yields. -/
inductive PErr
  | eofErr
  | timeoutErr
  | wrapPeek (e : PErr)
  | mismatchErr
  | wrapLine (e : PErr)
  | invalidHeader (h : List Char)
  | invalidUnknown (h : List Char)
  | unhandledType (t : List Char)
  | badPartCount (h : List Char)
  | invalidSrcIP (s : List Char)
  | invalidSrcPort (s : List Char)
  | invalidDstIP (s : List Char)
  | invalidDstPort (s : List Char)
  | connClosedRead
deriving DecidableEq

/-- `net.TCPAddr`: the ip is the 16-byte form `net.ParseIP` produces,
the port an `int` (`strconv.Atoi` can yield negative values). -/
structure TCPAddr where
  ip : List Nat
  port : Int
deriving DecidableEq

/-! ## Embedding of the Go standard library pieces the parser calls -/

/-- Decimal digits to a number, `v = v*10 + int(c - '0')` accumulation. -/
def digitsToNat (l : List Char) : Nat :=
  l.foldl (fun a c => a * 10 + (c.toNat - 48)) 0

/-- Hex digit value, as in `xtoi` of the net package. -/
def hexDigitVal (c : Char) : Option Nat :=
  if '0' ≤ c ∧ c ≤ '9' then some (c.toNat - 48)
  else if 'a' ≤ c ∧ c ≤ 'f' then some (c.toNat - 97 + 10)
  else if 'A' ≤ c ∧ c ≤ 'F' then some (c.toNat - 65 + 10)
  else none

/-- Leading hex digits of a list, and the rest. -/
def takeHexDigits : List Char → List Char × List Char
  | [] => ([], [])
  | c :: cs =>
    match hexDigitVal c with
    | none => ([], c :: cs)
    | some _ =>
      match takeHexDigits cs with
      | (ds, rest) => (c :: ds, rest)

/-- Hex digits to a number. -/
def hexToNat (l : List Char) : Nat :=
  l.foldl (fun a c => a * 16 + ((hexDigitVal c).getD 0)) 0

/-- `xtoi` of the net package: leading hex digits and their value; fails on
no digits or a value reaching `big` (0xFFFFFF). -/
def xtoiVal (s : List Char) : Option (Nat × List Char) :=
  match takeHexDigits s with
  | (ds, rest) =>
    if ds = [] then none
    else if 16777215 ≤ hexToNat ds then none
    else some (hexToNat ds, rest)

/-- Split on a separator character, as `strings.Split` with a one-character
separator: `splitOnChar c []` is `[[]]`, consecutive separators give empty
fields. -/
def splitOnChar (sep : Char) : List Char → List (List Char)
  | [] => [[]]
  | c :: rest =>
    if c = sep then [] :: splitOnChar sep rest
    else
      match splitOnChar sep rest with
      | [] => [[c]]
      | f :: fs => (c :: f) :: fs

/-- One dotted-decimal IPv4 field: nonempty, all digits, no extra leading
zero, value at most 255 (Go rejects the rest). -/
def v4FieldVal (ds : List Char) : Option Nat :=
  if ds = [] then none
  else if ¬ ds.all (fun c => '0' ≤ c ∧ c ≤ '9') then none
  else if 1 < ds.length ∧ ds.headD '0' = '0' then none
  else if 255 < digitsToNat ds then none
  else some (digitsToNat ds)

/-- The 16-byte IPv4-mapped form `net.ParseIP` returns for IPv4 text. -/
def v4Mapped (a b c d : Nat) : List Nat :=
  [0, 0, 0, 0, 0, 0, 0, 0, 0, 0, 255, 255, a, b, c, d]

/-- `net.ParseIP` on dotted-decimal IPv4 text: exactly four valid fields. -/
def parseV4 (s : List Char) : Option (List Nat) :=
  match splitOnChar '.' s with
  | [a, b, c, d] =>
    match v4FieldVal a, v4FieldVal b, v4FieldVal c, v4FieldVal d with
    | some va, some vb, some vc, some vd => some (v4Mapped va vb vc vd)
    | _, _, _, _ => none
  | _ => none

/-- The group-reading loop of the net package's `parseIPv6`: `acc` holds the
bytes filled so far, `ell` the ellipsis position if one was seen. Returns
the filled bytes, the ellipsis, and the unconsumed leftover at loop exit.
The fuel only bounds the at most eight group iterations. -/
def parseV6Loop : Nat → List Char → List Nat → Option Nat →
    Option (List Nat × Option Nat × List Char)
  | 0, _, _, _ => none
  | Nat.succ fuel, s, acc, ell =>
    if 16 ≤ acc.length then some (acc, ell, s)
    else
      match xtoiVal s with
      | none => none
      | some (n, rest) =>
        if 65535 < n then none
        else if rest.headD '?' = '.' ∧ rest ≠ [] then
          if (ell.isNone ∧ acc.length ≠ 12) ∨ 16 < acc.length + 4 then none
          else
            match parseV4 s with
            | none => none
            | some bs => some (acc ++ bs.drop 12, ell, [])
        else
          let acc2 := acc ++ [n / 256, n % 256]
          if rest.isEmpty then some (acc2, ell, [])
          else if rest.headD '?' ≠ ':' ∨ rest.length = 1 then none
          else
            let r2 := rest.drop 1
            if r2.headD '?' = ':' then
              if ell.isSome then none
              else
                let r3 := r2.drop 1
                if r3.isEmpty then some (acc2, some acc2.length, [])
                else parseV6Loop fuel r3 acc2 (some acc2.length)
            else parseV6Loop fuel r2 acc2 ell

/-- `parseIPv6` of the net package: optional leading `::`, the group loop,
then the ellipsis expansion (bytes after the ellipsis shifted to the end,
zeros in between). -/
def parseV6 (s0 : List Char) : Option (List Nat) :=
  let lead := s0.take 2 = [':', ':']
  let s := if lead then s0.drop 2 else s0
  let ell0 : Option Nat := if lead then some 0 else none
  if lead ∧ s = [] then some (List.replicate 16 0)
  else
    match parseV6Loop 9 s [] ell0 with
    | none => none
    | some (acc, ell, leftover) =>
      if leftover ≠ [] then none
      else if acc.length < 16 then
        match ell with
        | none => none
        | some e => some (acc.take e ++ List.replicate (16 - acc.length) 0 ++ acc.drop e)
      else if ell.isSome then none
      else some acc

/-- `net.ParseIP`: the first `'.'` or `':'` decides the family; neither
present means no IP. -/
def goParseIP (s : List Char) : Option (List Nat) :=
  match s.find? (fun c => c = '.' ∨ c = ':') with
  | some c => if c = '.' then parseV4 s else parseV6 s
  | none => none

/-- `strconv.Atoi` digits part: nonempty, all decimal digits, value within
the 64-bit int range for the given sign. -/
def atoiCore (ds : List Char) (neg : Bool) : Option Int :=
  if ds = [] ∨ ¬ ds.all (fun c => '0' ≤ c ∧ c ≤ '9') then none
  else
    let n := digitsToNat ds
    if neg then
      if n ≤ 9223372036854775808 then some (-(n : Int)) else none
    else
      if n ≤ 9223372036854775807 then some ((n : Int)) else none

/-- `strconv.Atoi`: optional sign, then decimal digits. -/
def goAtoi : List Char → Option Int
  | '+' :: r => atoiCore r false
  | '-' :: r => atoiCore r true
  | s => atoiCore s false

/-! ## The header parser (`checkPrefix` of protocol.go) -/

/-- Outcome of the incremental signature peek loop (the `for i := 1;
i <= prefixLen` loop): every byte matched; a byte differed; or the peek
failed with a deadline or end-of-stream error before a difference. -/
inductive SigRes
  | matched
  | absentMismatch
  | absentTimeout
  | eofFail
deriving DecidableEq

/-- The peek loop, byte by byte: first argument the stream data, second the
signature bytes still to check. A length check (`Peek(i)` failing) comes
before the comparison, exactly as in the source. -/
def sigLoopAux : List Char → List Char → Tail → SigRes
  | _, [], _ => .matched
  | [], _ :: _, .eof => .eofFail
  | [], _ :: _, .timeout => .absentTimeout
  | c :: cs, s :: ss, t => if c = s then sigLoopAux cs ss t else .absentMismatch

/-- `bufReader.ReadString('\n')`: the line up to and including the first
newline, and the rest; `none` when the stream holds no newline (the
read consumes everything and reports the tail's error). -/
def breakNL : List Char → Option (List Char × List Char)
  | [] => none
  | c :: cs =>
    if c = '\n' then some ([c], cs)
    else
      match breakNL cs with
      | none => none
      | some (l, r) => some (c :: l, r)

/-- `header[:len(header)-2]`: strip the two-byte terminator. -/
def stripCRLF (line : List Char) : List Char := line.take (line.length - 2)

/-- `strings.Split(header, " ")`. -/
def splitSp : List Char → List (List Char) := splitOnChar ' '

/-- The fields interspersed with single spaces (used to build header lines
in theorem statements). -/
def joinSp : List (List Char) → List Char
  | [] => []
  | [p] => p
  | p :: ps => p ++ ' ' :: joinSp ps

def unknownTok : List Char := ("UNKNOWN").data

def tcp4Tok : List Char := ("TCP4").data

def tcp6Tok : List Char := ("TCP6").data

/-- What one run of `checkPrefix` produces: `ret` is the function's return
value, the other fields the assignments it made to the `Conn` (`proxyErr`,
`srcAddr`, `dstAddr`, `useConnAddr`), whether it called `Close` on the
underlying connection, and the buffered reader afterwards. -/
structure CPRes where
  ret : Option PErr
  proxyErr : Option PErr
  srcAddr : Option TCPAddr
  dstAddr : Option TCPAddr
  useConnAddr : Bool
  closedConn : Bool
  buf : Source
deriving DecidableEq

/-- protocol.go lines 246-312: everything after `ReadString` succeeded.
`line` includes its newline; `rest` is the stream after the line. Note the
source parses and stores the source address before attempting the
destination fields, so `srcAddr` is already set on the two destination
failure branches. -/
def afterLine (unknownOK ucA : Bool) (line : List Char) (rest : Source) : CPRes :=
  let header := stripCRLF line
  let parts := splitSp header
  if parts.length < 2 then
    ⟨some (.invalidHeader header), some (.invalidHeader header),
      none, none, ucA, true, rest⟩
  else if parts.getD 1 [] = unknownTok then
    if ¬ unknownOK ∨ parts.length ≠ 2 then
      ⟨some (.invalidUnknown header), some (.invalidUnknown header),
        none, none, ucA, true, rest⟩
    else ⟨none, none, none, none, true, false, rest⟩
  else if parts.getD 1 [] = tcp4Tok ∨ parts.getD 1 [] = tcp6Tok then
    if parts.length ≠ 6 then
      ⟨some (.badPartCount header), some (.badPartCount header),
        none, none, ucA, true, rest⟩
    else
      match goParseIP (parts.getD 2 []) with
      | none =>
        ⟨some (.invalidSrcIP (parts.getD 2 [])), some (.invalidSrcIP (parts.getD 2 [])),
          none, none, ucA, true, rest⟩
      | some ip1 =>
        match goAtoi (parts.getD 4 []) with
        | none =>
          ⟨some (.invalidSrcPort (parts.getD 4 [])), some (.invalidSrcPort (parts.getD 4 [])),
            none, none, ucA, true, rest⟩
        | some port1 =>
          match goParseIP (parts.getD 3 []) with
          | none =>
            ⟨some (.invalidDstIP (parts.getD 3 [])), some (.invalidDstIP (parts.getD 3 [])),
              some ⟨ip1, port1⟩, none, ucA, true, rest⟩
          | some ip2 =>
            match goAtoi (parts.getD 5 []) with
            | none =>
              ⟨some (.invalidDstPort (parts.getD 5 [])), some (.invalidDstPort (parts.getD 5 [])),
                some ⟨ip1, port1⟩, none, ucA, true, rest⟩
            | some port2 =>
              ⟨none, none, some ⟨ip1, port1⟩, some ⟨ip2, port2⟩, ucA, false, rest⟩
  else
    ⟨some (.unhandledType (parts.getD 1 [])), some (.unhandledType (parts.getD 1 [])),
      none, none, ucA, true, rest⟩

/-- `checkPrefix` of protocol.go: peek the signature byte by byte (a timeout
there returns nil, an end of stream returns the raw io.EOF, a mismatch
returns nil with `proxyErr` set and nothing consumed); on a full match read
the header line (a failure closes the connection and returns the raw read
error) and parse it. -/
def checkPfx (unknownOK ucA : Bool) (src : Source) : CPRes :=
  match sigLoopAux src.data sigChars src.tail with
  | .absentMismatch => ⟨none, some .mismatchErr, none, none, ucA, false, src⟩
  | .absentTimeout => ⟨none, some (.wrapPeek .timeoutErr), none, none, ucA, false, src⟩
  | .eofFail => ⟨some .eofErr, some (.wrapPeek .eofErr), none, none, ucA, false, src⟩
  | .matched =>
    match breakNL src.data with
    | none =>
      match src.tail with
      | .eof => ⟨some .eofErr, some (.wrapLine .eofErr), none, none, ucA, true, ⟨[], .eof⟩⟩
      | .timeout =>
        ⟨some .timeoutErr, some (.wrapLine .timeoutErr), none, none, ucA, true, ⟨[], .timeout⟩⟩
    | some (line, rest) => afterLine unknownOK ucA line ⟨rest, src.tail⟩

/-! ## The connection decorator (`Conn` of protocol.go) -/

/-- The mutable state of a wrapped connection. `bufOnClosed` records that
`checkPrefixOnce` replaced the buffered reader with a fresh one over the
now-closed connection; `parseRuns` counts executions of `checkPrefix`
(the body of the `sync.Once`). -/
structure ConnSt where
  buf : Source
  bufOnClosed : Bool
  connClosed : Bool
  srcAddr : Option TCPAddr
  dstAddr : Option TCPAddr
  proxyErr : Option PErr
  useConnAddr : Bool
  onceDone : Bool
  unknownOK : Bool
  parseRuns : Nat
deriving DecidableEq

/-- `NewConn` plus the two flags `Accept` copies onto it: `ucA` is true when
the listener's SourceCheck rejected the peer. -/
def newConn (unknownOK ucA : Bool) (src : Source) : ConnSt :=
  ⟨src, false, false, none, none, none, ucA, false, unknownOK, 0⟩

/-- One execution of `checkPrefix` inside the `once.Do` body: returns the
error `checkPrefix` returned and the updated connection state. -/
def applyCheck (c : ConnSt) : Option PErr × ConnSt :=
  let r := checkPfx c.unknownOK c.useConnAddr c.buf
  (r.ret,
    { c with
      buf := r.buf
      connClosed := c.connClosed || r.closedConn
      srcAddr := r.srcAddr
      dstAddr := r.dstAddr
      proxyErr := r.proxyErr
      useConnAddr := r.useConnAddr
      onceDone := true
      parseRuns := c.parseRuns + 1 })

/-- `checkPrefixOnce` of protocol.go: run the parse once; on an error other
than the bare io.EOF, close the connection and replace the buffered reader
with one over the (closed) connection. -/
def checkPfxOnce (c : ConnSt) : ConnSt :=
  if c.onceDone then c
  else
    match applyCheck c with
    | (none, c2) => c2
    | (some e, c2) =>
      if e = .eofErr then c2
      else { c2 with connClosed := true, bufOnClosed := true, buf := ⟨[], c2.buf.tail⟩ }

/-- A read from the buffered reader (up to `n` bytes), after the once-step:
a reader reset onto the closed connection yields the transport's
closed-connection error. -/
def readBuf (c : ConnSt) (n : Nat) : Except PErr (List Char) × ConnSt :=
  if c.bufOnClosed then (Except.error .connClosedRead, c)
  else
    (Except.ok (c.buf.data.take n),
      { c with buf := ⟨c.buf.data.drop n, c.buf.tail⟩ })

/-- `Read` of protocol.go: `once.Do(func() { err = p.checkPrefix() })` —
note `err` is only set by the closure, so a Read arriving after the once
already ran proceeds straight to the buffered reader. -/
def doRead (c : ConnSt) (n : Nat) : Except PErr (List Char) × ConnSt :=
  if c.onceDone then readBuf c n
  else
    match applyCheck c with
    | (some e, c2) => (Except.error e, c2)
    | (none, c2) => readBuf c2 n

/-- What an address accessor returns: the raw connection's own address
(`p.conn.RemoteAddr()` / `p.conn.LocalAddr()`), or an address taken from
the parsed header. -/
inductive AddrVal
  | rawConn
  | fromHeader (a : TCPAddr)
deriving DecidableEq

/-- `RemoteAddr` of protocol.go. -/
def remoteAddrM (c : ConnSt) : AddrVal × ConnSt :=
  let c2 := checkPfxOnce c
  (match c2.srcAddr, c2.useConnAddr with
   | some a, false => .fromHeader a
   | _, _ => .rawConn, c2)

/-- `LocalAddr` of protocol.go. -/
def localAddrM (c : ConnSt) : AddrVal × ConnSt :=
  let c2 := checkPfxOnce c
  (match c2.dstAddr, c2.useConnAddr with
   | some a, false => .fromHeader a
   | _, _ => .rawConn, c2)

/-- `ProxySourceAddr` of protocol.go: the stored source address (nil or
not) together with the stored parse error. -/
def proxySourceAddrM (c : ConnSt) : (Option TCPAddr × Option PErr) × ConnSt :=
  let c2 := checkPfxOnce c
  ((c2.srcAddr, c2.proxyErr), c2)

/-- `Write` of protocol.go: `return p.conn.Write(b)` — the state is left
untouched and the buffer is handed to the underlying connection verbatim
(the second component is what `conn.Write` receives). -/
def writeM (c : ConnSt) (b : List Char) : ConnSt × List Char := (c, b)

/-- The operations whose interleavings the claims quantify over. -/
inductive Op
  | rd (n : Nat)
  | rAddr
  | lAddr
  | pSrc
  | wr (b : List Char)
deriving DecidableEq

def runOp (c : ConnSt) : Op → ConnSt
  | .rd n => (doRead c n).2
  | .rAddr => (remoteAddrM c).2
  | .lAddr => (localAddrM c).2
  | .pSrc => (proxySourceAddrM c).2
  | .wr b => (writeM c b).1

def runOps (c : ConnSt) (ops : List Op) : ConnSt := ops.foldl runOp c

/-- The operations that enter the `sync.Once` (everything but `Write`). -/
def isTrig : Op → Bool
  | .wr _ => false
  | _ => true

/-- The parse outcome a connection stores: addresses, cached error, and the
prefer-raw-address flag. -/
def outcomeOf (c : ConnSt) : Option TCPAddr × Option TCPAddr × Option PErr × Bool :=
  (c.srcAddr, c.dstAddr, c.proxyErr, c.useConnAddr)

/-- The bytes a sequence of Read calls of the given sizes returns,
concatenated (failed reads contribute nothing). -/
def concatReads : ConnSt → List Nat → List Char
  | _, [] => []
  | c, n :: ns =>
    match doRead c n with
    | (Except.ok bs, c2) => bs ++ concatReads c2 ns
    | (Except.error _, c2) => concatReads c2 ns

/-! ## Helper lemmas -/

theorem sigLoop_matched (s l : List Char) (t : Tail) :
    sigLoopAux (s ++ l) s t = SigRes.matched := by
  induction s with
  | nil => cases l <;> rfl
  | cons c cs ih => simpa [sigLoopAux] using ih

theorem sigLoop_short_timeout (d rs : List Char) (c : Char) :
    sigLoopAux d (d ++ c :: rs) Tail.timeout = SigRes.absentTimeout := by
  induction d with
  | nil => rfl
  | cons x xs ih => simpa [sigLoopAux] using ih

theorem sigLoop_mismatch (j : Nat) (d s : List Char) (t : Tail)
    (hd : j < d.length) (hs : j < s.length)
    (hne : d.getD j ' ' ≠ s.getD j ' ') :
    sigLoopAux d s t = SigRes.absentMismatch := by
  induction j generalizing d s with
  | zero =>
    match d, s with
    | c :: cs, e :: es =>
      simp only [List.getD_cons_zero] at hne
      simp [sigLoopAux, hne]
  | succ j ih =>
    match d, s with
    | c :: cs, e :: es =>
      by_cases hce : c = e
      · subst hce
        simp only [sigLoopAux, if_pos rfl]
        exact ih cs es (Nat.lt_of_succ_lt_succ hd) (Nat.lt_of_succ_lt_succ hs)
          (by simpa using hne)
      · simp [sigLoopAux, hce]

theorem breakNL_none (a : List Char) (h : '\n' ∉ a) : breakNL a = none := by
  induction a with
  | nil => rfl
  | cons c cs ih =>
    have hc : c ≠ '\n' := fun hh => h (hh ▸ List.mem_cons_self c cs)
    have hcs : '\n' ∉ cs := fun hh => h (List.mem_cons_of_mem c hh)
    simp [breakNL, hc, ih hcs]

theorem breakNL_app (a b : List Char) (h : '\n' ∉ a) :
    breakNL (a ++ '\n' :: b) = some (a ++ ['\n'], b) := by
  induction a with
  | nil => rfl
  | cons c cs ih =>
    have hc : c ≠ '\n' := fun hh => h (hh ▸ List.mem_cons_self c cs)
    have hcs : '\n' ∉ cs := fun hh => h (List.mem_cons_of_mem c hh)
    simp [breakNL, hc, ih hcs]

theorem stripCRLF_two (a : List Char) (c1 c2 : Char) :
    stripCRLF (a ++ [c1, c2]) = a := by
  have : (a ++ [c1, c2]).length - 2 = a.length := by simp
  rw [stripCRLF, this]
  exact List.take_left a [c1, c2]

theorem splitSp_single (a : List Char) (h : ' ' ∉ a) : splitSp a = [a] := by
  induction a with
  | nil => rfl
  | cons c cs ih =>
    have hc : c ≠ ' ' := fun hh => h (hh ▸ List.mem_cons_self c cs)
    have hcs : ' ' ∉ cs := fun hh => h (List.mem_cons_of_mem c hh)
    simp [splitSp, splitOnChar, hc] at ih ⊢
    simp [ih hcs]

theorem splitSp_field (a b : List Char) (h : ' ' ∉ a) :
    splitSp (a ++ ' ' :: b) = a :: splitSp b := by
  induction a with
  | nil => simp [splitSp, splitOnChar]
  | cons c cs ih =>
    have hc : c ≠ ' ' := fun hh => h (hh ▸ List.mem_cons_self c cs)
    have hcs : ' ' ∉ cs := fun hh => h (List.mem_cons_of_mem c hh)
    have ih2 := ih hcs
    simp only [splitSp, splitOnChar] at ih2 ⊢
    simp [hc, ih2]

theorem splitSp_join (ps : List (List Char)) (hne : ps ≠ [])
    (h : ∀ p ∈ ps, ' ' ∉ p) : splitSp (joinSp ps) = ps := by
  induction ps with
  | nil => exact absurd rfl hne
  | cons p ps ih =>
    cases ps with
    | nil => exact splitSp_single p (h p (List.mem_cons_self p []))
    | cons q qs =>
      have hp : ' ' ∉ p := h p (List.mem_cons_self p (q :: qs))
      have hrest : ∀ x ∈ q :: qs, ' ' ∉ x := fun x hx =>
        h x (List.mem_cons_of_mem p hx)
      have : joinSp (p :: q :: qs) = p ++ ' ' :: joinSp (q :: qs) := rfl
      rw [this, splitSp_field p _ hp, ih (by simp) hrest]

/-- Framing: a stream that begins with the signature, continues with a
newline-free remainder `r`, and carries a CRLF-terminated line, reduces
`checkPrefix` to the line-parsing step on `PROXY <r>` with the payload
left in the buffer. -/
theorem checkPfx_crlf (u b : Bool) (r payload : List Char) (t : Tail)
    (hnl : '\n' ∉ r) :
    checkPfx u b ⟨sigChars ++ r ++ '\r' :: '\n' :: payload, t⟩
      = afterLine u b (sigChars ++ r ++ ['\r', '\n']) ⟨payload, t⟩ := by
  have hdata : sigChars ++ r ++ '\r' :: '\n' :: payload
      = sigChars ++ (r ++ '\r' :: '\n' :: payload) := by simp
  have hsig : sigLoopAux (sigChars ++ (r ++ '\r' :: '\n' :: payload)) sigChars t
      = SigRes.matched := sigLoop_matched sigChars _ t
  have hshape : sigChars ++ (r ++ '\r' :: '\n' :: payload)
      = (sigChars ++ r ++ ['\r']) ++ '\n' :: payload := by simp
  have hnotin : '\n' ∉ sigChars ++ r ++ ['\r'] := by
    simp only [List.mem_append, List.mem_singleton]
    rintro ((hh | hh) | hh)
    · revert hh; decide
    · exact hnl hh
    · revert hh; decide
  have hbreak : breakNL (sigChars ++ (r ++ '\r' :: '\n' :: payload))
      = some (sigChars ++ r ++ ['\r', '\n'], payload) := by
    rw [hshape, breakNL_app _ _ hnotin]
    simp
  simp only [checkPfx, hdata, hsig, hbreak]

/-- After the once-step has run with no error and the reader intact, reads
of any sizes return the buffered bytes in order. -/
theorem concatReads_ok (sizes : List Nat) (c : ConnSt)
    (hd : c.onceDone = true) (hb : c.bufOnClosed = false) :
    concatReads c sizes = c.buf.data.take sizes.sum := by
  induction sizes generalizing c with
  | nil => simp [concatReads]
  | cons n ns ih =>
    have hread : doRead c n
        = (Except.ok (c.buf.data.take n),
            { c with buf := ⟨c.buf.data.drop n, c.buf.tail⟩ }) := by
      simp [doRead, hd, readBuf, hb]
    have ih2 := ih { c with buf := ⟨c.buf.data.drop n, c.buf.tail⟩ } hd hb
    simp only [concatReads, hread, ih2, List.sum_cons]
    exact (List.take_add c.buf.data n ns.sum).symm

/-! ## Run lemmas: the once latch -/

theorem runOps_append (c : ConnSt) (xs ys : List Op) :
    runOps c (xs ++ ys) = runOps (runOps c xs) ys :=
  List.foldl_append runOp c xs ys

theorem runOp_wr (c : ConnSt) (b : List Char) : runOp c (Op.wr b) = c := rfl

theorem remoteAddrM_snd (c : ConnSt) : (remoteAddrM c).2 = checkPfxOnce c := rfl

theorem localAddrM_snd (c : ConnSt) : (localAddrM c).2 = checkPfxOnce c := rfl

theorem proxySourceAddrM_snd (c : ConnSt) : (proxySourceAddrM c).2 = checkPfxOnce c := rfl

theorem checkPfxOnce_done (c : ConnSt) (hd : c.onceDone = true) :
    checkPfxOnce c = c := by
  simp [checkPfxOnce, hd]

theorem readBuf_snd (c : ConnSt) (n : Nat) :
    (readBuf c n).2.onceDone = c.onceDone ∧ (readBuf c n).2.parseRuns = c.parseRuns
      ∧ outcomeOf (readBuf c n).2 = outcomeOf c := by
  by_cases hb : c.bufOnClosed <;> simp [readBuf, hb, outcomeOf]

theorem checkPfxOnce_fields (c : ConnSt) (hd : c.onceDone = false) :
    (checkPfxOnce c).onceDone = true
      ∧ (checkPfxOnce c).parseRuns = c.parseRuns + 1
      ∧ outcomeOf (checkPfxOnce c) = outcomeOf (applyCheck c).2 := by
  have h1 : (applyCheck c).2.onceDone = true := by simp [applyCheck]
  have h2 : (applyCheck c).2.parseRuns = c.parseRuns + 1 := by simp [applyCheck]
  rcases hr : applyCheck c with ⟨ret, c2⟩
  rw [hr] at h1 h2
  simp only at h1 h2
  simp only [checkPfxOnce, hd, Bool.false_eq_true, if_false, hr]
  cases ret with
  | none => exact ⟨h1, h2, rfl⟩
  | some e =>
    by_cases he : e = PErr.eofErr <;> simp [he, h1, h2, outcomeOf]

theorem doRead_snd_fields (c : ConnSt) (n : Nat) (hd : c.onceDone = false) :
    (doRead c n).2.onceDone = true
      ∧ (doRead c n).2.parseRuns = c.parseRuns + 1
      ∧ outcomeOf (doRead c n).2 = outcomeOf (applyCheck c).2 := by
  have h1 : (applyCheck c).2.onceDone = true := by simp [applyCheck]
  have h2 : (applyCheck c).2.parseRuns = c.parseRuns + 1 := by simp [applyCheck]
  rcases hr : applyCheck c with ⟨ret, c2⟩
  rw [hr] at h1 h2
  simp only at h1 h2
  simp only [doRead, hd, Bool.false_eq_true, if_false, hr]
  cases ret with
  | some e => exact ⟨h1, h2, rfl⟩
  | none =>
    obtain ⟨g1, g2, g3⟩ := readBuf_snd c2 n
    exact ⟨g1.trans h1, g2.trans h2, g3⟩

theorem stepDone (c : ConnSt) (op : Op) (hd : c.onceDone = true) :
    (runOp c op).onceDone = true ∧ (runOp c op).parseRuns = c.parseRuns
      ∧ outcomeOf (runOp c op) = outcomeOf c := by
  cases op with
  | rd n =>
    have hrw : runOp c (Op.rd n) = (readBuf c n).2 := by
      simp [runOp, doRead, hd]
    obtain ⟨g1, g2, g3⟩ := readBuf_snd c n
    exact ⟨hrw ▸ g1.trans hd, hrw ▸ g2, hrw ▸ g3⟩
  | rAddr => rw [runOp, remoteAddrM_snd, checkPfxOnce_done c hd]; exact ⟨hd, rfl, rfl⟩
  | lAddr => rw [runOp, localAddrM_snd, checkPfxOnce_done c hd]; exact ⟨hd, rfl, rfl⟩
  | pSrc => rw [runOp, proxySourceAddrM_snd, checkPfxOnce_done c hd]; exact ⟨hd, rfl, rfl⟩
  | wr b => exact ⟨hd, rfl, rfl⟩

theorem runDone (ops : List Op) (c : ConnSt) (hd : c.onceDone = true) :
    (runOps c ops).onceDone = true ∧ (runOps c ops).parseRuns = c.parseRuns
      ∧ outcomeOf (runOps c ops) = outcomeOf c := by
  induction ops generalizing c with
  | nil => exact ⟨hd, rfl, rfl⟩
  | cons op ops ih =>
    obtain ⟨h1, h2, h3⟩ := stepDone c op hd
    obtain ⟨g1, g2, g3⟩ := ih (runOp c op) h1
    have hrw : runOps c (op :: ops) = runOps (runOp c op) ops := rfl
    exact ⟨hrw ▸ g1, hrw ▸ (g2.trans h2), hrw ▸ (g3.trans h3)⟩

theorem stepTrig (c : ConnSt) (op : Op) (hd : c.onceDone = false)
    (ht : isTrig op = true) :
    (runOp c op).onceDone = true ∧ (runOp c op).parseRuns = c.parseRuns + 1
      ∧ outcomeOf (runOp c op) = outcomeOf (applyCheck c).2 := by
  cases op with
  | rd n => exact doRead_snd_fields c n hd
  | rAddr => rw [runOp, remoteAddrM_snd]; exact checkPfxOnce_fields c hd
  | lAddr => rw [runOp, localAddrM_snd]; exact checkPfxOnce_fields c hd
  | pSrc => rw [runOp, proxySourceAddrM_snd]; exact checkPfxOnce_fields c hd
  | wr b => simp [isTrig] at ht

theorem firstTrig (xs : List Op) (c : ConnSt) (hd : c.onceDone = false)
    (ht : xs.any isTrig = true) :
    (runOps c xs).onceDone = true ∧ (runOps c xs).parseRuns = c.parseRuns + 1
      ∧ outcomeOf (runOps c xs) = outcomeOf (applyCheck c).2 := by
  induction xs generalizing c with
  | nil => simp at ht
  | cons op ops ih =>
    by_cases hop : isTrig op = true
    · obtain ⟨h1, h2, h3⟩ := stepTrig c op hd hop
      obtain ⟨g1, g2, g3⟩ := runDone ops (runOp c op) h1
      refine ⟨g1, ?_, ?_⟩
      · rw [runOps] at g2 ⊢; simp only [List.foldl_cons]; rw [g2, h2]
      · rw [runOps] at g3 ⊢; simp only [List.foldl_cons]; rw [g3, h3]
    · have hwr : ∃ b, op = Op.wr b := by
        cases op <;> simp_all [isTrig]
      obtain ⟨b, rfl⟩ := hwr
      have ht2 : ops.any isTrig = true := by simpa [isTrig] using ht
      have : runOps c (Op.wr b :: ops) = runOps c ops := by
        rw [runOps, List.foldl_cons, runOp_wr]; rfl
      rw [this]
      exact ih c hd ht2

theorem allWr (ops : List Op) (c : ConnSt) (h : ops.any isTrig = false) :
    runOps c ops = c := by
  induction ops generalizing c with
  | nil => rfl
  | cons op ops ih =>
    have hop : isTrig op = false := by
      cases hx : isTrig op
      · rfl
      · simp [List.any_cons, hx] at h
    have hwr : ∃ b, op = Op.wr b := by cases op <;> simp_all [isTrig]
    obtain ⟨b, rfl⟩ := hwr
    have ht2 : ops.any isTrig = false := by simpa [isTrig] using h
    rw [runOps, List.foldl_cons, runOp_wr]
    exact ih c ht2

theorem checkPfxOnce_proxyErr (c : ConnSt) (hd : c.onceDone = false) :
    (checkPfxOnce c).proxyErr = (applyCheck c).2.proxyErr := by
  simp only [checkPfxOnce, hd, Bool.false_eq_true, if_neg, not_false_iff]
  rcases hr : applyCheck c with ⟨ret, c2⟩
  cases ret with
  | none => rfl
  | some e => by_cases he : e = PErr.eofErr <;> simp [he]

theorem checkPfxOnce_srcAddr (c : ConnSt) (hd : c.onceDone = false) :
    (checkPfxOnce c).srcAddr = (applyCheck c).2.srcAddr := by
  simp only [checkPfxOnce, hd, Bool.false_eq_true, if_neg, not_false_iff]
  rcases hr : applyCheck c with ⟨ret, c2⟩
  cases ret with
  | none => rfl
  | some e => by_cases he : e = PErr.eofErr <;> simp [he]

theorem checkPfxOnce_eq (c : ConnSt) (hd : c.onceDone = false) :
    checkPfxOnce c
      = (match applyCheck c with
        | (none, c2) => c2
        | (some e, c2) =>
          if e = PErr.eofErr then c2
          else { c2 with connClosed := true, bufOnClosed := true, buf := ⟨[], c2.buf.tail⟩ }) := by
  simp [checkPfxOnce, hd]

theorem doRead_eq (c : ConnSt) (n : Nat) (hd : c.onceDone = false) :
    doRead c n
      = (match applyCheck c with
        | (some e, c2) => (Except.error e, c2)
        | (none, c2) => readBuf c2 n) := by
  simp [doRead, hd]

/-- Opening a fresh connection and running the once-step, when the parse
returns no error: the state afterwards, component by component. -/
theorem checkPfxOnce_newConn (u b : Bool) (src : Source)
    (hret : (checkPfx u b src).ret = none) :
    checkPfxOnce (newConn u b src) =
      ⟨(checkPfx u b src).buf, false, (checkPfx u b src).closedConn,
        (checkPfx u b src).srcAddr, (checkPfx u b src).dstAddr,
        (checkPfx u b src).proxyErr, (checkPfx u b src).useConnAddr, true, u, 1⟩ := by
  have happ : applyCheck (newConn u b src)
      = ((checkPfx u b src).ret,
          ⟨(checkPfx u b src).buf, false, (checkPfx u b src).closedConn,
            (checkPfx u b src).srcAddr, (checkPfx u b src).dstAddr,
            (checkPfx u b src).proxyErr, (checkPfx u b src).useConnAddr, true, u, 1⟩) := by
    simp [applyCheck, newConn]
  rw [checkPfxOnce_eq _ rfl, happ, hret]

/-- The same when the parse returns an error other than the bare io.EOF:
`checkPrefixOnce` additionally closes the connection and resets the
buffered reader onto it. -/
theorem checkPfxOnce_newConn_err (u b : Bool) (src : Source) (e : PErr)
    (hret : (checkPfx u b src).ret = some e) (hne : e ≠ PErr.eofErr) :
    checkPfxOnce (newConn u b src) =
      ⟨⟨[], (checkPfx u b src).buf.tail⟩, true, true,
        (checkPfx u b src).srcAddr, (checkPfx u b src).dstAddr,
        (checkPfx u b src).proxyErr, (checkPfx u b src).useConnAddr, true, u, 1⟩ := by
  have happ : applyCheck (newConn u b src)
      = ((checkPfx u b src).ret,
          ⟨(checkPfx u b src).buf, false, (checkPfx u b src).closedConn,
            (checkPfx u b src).srcAddr, (checkPfx u b src).dstAddr,
            (checkPfx u b src).proxyErr, (checkPfx u b src).useConnAddr, true, u, 1⟩) := by
    simp [applyCheck, newConn]
  rw [checkPfxOnce_eq _ rfl, happ, hret]
  simp [hne]

/-- A first Read on a fresh connection when the parse succeeds: the error
is nil and the bytes come from the post-parse buffer. -/
theorem doRead_newConn (u b : Bool) (src : Source) (n : Nat)
    (hret : (checkPfx u b src).ret = none) :
    (doRead (newConn u b src) n).1
      = Except.ok ((checkPfx u b src).buf.data.take n) := by
  have happ : applyCheck (newConn u b src)
      = ((checkPfx u b src).ret,
          ⟨(checkPfx u b src).buf, false, (checkPfx u b src).closedConn,
            (checkPfx u b src).srcAddr, (checkPfx u b src).dstAddr,
            (checkPfx u b src).proxyErr, (checkPfx u b src).useConnAddr, true, u, 1⟩) := by
    simp [applyCheck, newConn]
  rw [doRead_eq _ _ rfl, happ, hret]
  simp [readBuf]

/-- A first Read on a fresh connection when the parse returns an error:
that error is returned. -/
theorem doRead_newConn_err (u b : Bool) (src : Source) (n : Nat) (e : PErr)
    (hret : (checkPfx u b src).ret = some e) :
    (doRead (newConn u b src) n).1 = Except.error e := by
  have happ : applyCheck (newConn u b src)
      = ((checkPfx u b src).ret,
          ⟨(checkPfx u b src).buf, false, (checkPfx u b src).closedConn,
            (checkPfx u b src).srcAddr, (checkPfx u b src).dstAddr,
            (checkPfx u b src).proxyErr, (checkPfx u b src).useConnAddr, true, u, 1⟩) := by
    simp [applyCheck, newConn]
  rw [doRead_eq _ _ rfl, happ, hret]

end ProxyProto

namespace ProxyProto

/-- The byte stream `PROXY <fam> <f2> <f3> <f4> <f5>\r\n` followed by
arbitrary payload bytes. -/
def hdrStream (fam f2 f3 f4 f5 payload : List Char) (t : Tail) : Source :=
  ⟨sigChars ++ (fam ++ ' ' :: (f2 ++ ' ' :: (f3 ++ ' ' :: (f4 ++ ' ' :: f5))))
      ++ '\r' :: '\n' :: payload, t⟩

theorem splitSp_header (fam f2 f3 f4 f5 : List Char) (hsf : ' ' ∉ fam)
    (hs2 : ' ' ∉ f2) (hs3 : ' ' ∉ f3) (hs4 : ' ' ∉ f4) (hs5 : ' ' ∉ f5) :
    splitSp (sigChars ++ (fam ++ ' ' :: (f2 ++ ' ' :: (f3 ++ ' ' :: (f4 ++ ' ' :: f5)))))
      = [("PROXY").data, fam, f2, f3, f4, f5] := by
  have h0 : sigChars ++ (fam ++ ' ' :: (f2 ++ ' ' :: (f3 ++ ' ' :: (f4 ++ ' ' :: f5))))
      = ("PROXY").data ++ ' ' :: (fam ++ ' ' :: (f2 ++ ' ' :: (f3 ++ ' ' :: (f4 ++ ' ' :: f5)))) :=
    rfl
  rw [h0, splitSp_field _ _ (by decide), splitSp_field _ _ hsf, splitSp_field _ _ hs2,
    splitSp_field _ _ hs3, splitSp_field _ _ hs4, splitSp_single _ hs5]

/-- The parse outcome of a well-formed `PROXY <fam> ...` stream whose four
address fields parse: Resolved, nothing closed, payload left buffered. -/
theorem checkPfx_resolved (u b : Bool) (t : Tail)
    (fam f2 f3 f4 f5 payload : List Char) (a1 a2 : List Nat) (n1 n2 : Int)
    (hfam : fam = tcp4Tok ∨ fam = tcp6Tok)
    (hnf : '\n' ∉ fam)
    (hs2 : ' ' ∉ f2) (hn2 : '\n' ∉ f2) (hs3 : ' ' ∉ f3) (hn3 : '\n' ∉ f3)
    (hs4 : ' ' ∉ f4) (hn4 : '\n' ∉ f4) (hs5 : ' ' ∉ f5) (hn5 : '\n' ∉ f5)
    (hip1 : goParseIP f2 = some a1) (hip2 : goParseIP f3 = some a2)
    (hp1 : goAtoi f4 = some n1) (hp2 : goAtoi f5 = some n2) :
    checkPfx u b (hdrStream fam f2 f3 f4 f5 payload t)
      = ⟨none, none, some ⟨a1, n1⟩, some ⟨a2, n2⟩, b, false, ⟨payload, t⟩⟩ := by
  have hsf : ' ' ∉ fam := by
    rcases hfam with h | h <;> subst h <;> decide
  have hnl : '\n' ∉ fam ++ ' ' :: (f2 ++ ' ' :: (f3 ++ ' ' :: (f4 ++ ' ' :: f5))) := by
    simp only [List.mem_append, List.mem_cons]
    rintro (h | h | h)
    · exact hnf h
    · exact absurd h.symm (by decide)
    · rcases h with h | h | h
      · exact hn2 h
      · exact absurd h.symm (by decide)
      · rcases h with h | h | h
        · exact hn3 h
        · exact absurd h.symm (by decide)
        · rcases h with h | h | h
          · exact hn4 h
          · exact absurd h.symm (by decide)
          · exact hn5 h
  have hframe := checkPfx_crlf u b
    (fam ++ ' ' :: (f2 ++ ' ' :: (f3 ++ ' ' :: (f4 ++ ' ' :: f5)))) payload t hnl
  have hline : stripCRLF (sigChars
        ++ (fam ++ ' ' :: (f2 ++ ' ' :: (f3 ++ ' ' :: (f4 ++ ' ' :: f5)))) ++ ['\r', '\n'])
      = sigChars ++ (fam ++ ' ' :: (f2 ++ ' ' :: (f3 ++ ' ' :: (f4 ++ ' ' :: f5)))) := by
    rw [show sigChars ++ (fam ++ ' ' :: (f2 ++ ' ' :: (f3 ++ ' ' :: (f4 ++ ' ' :: f5)))) ++ ['\r', '\n']
        = (sigChars ++ (fam ++ ' ' :: (f2 ++ ' ' :: (f3 ++ ' ' :: (f4 ++ ' ' :: f5))))) ++ ['\r', '\n']
      from by simp, stripCRLF_two]
  have hsplit := splitSp_header fam f2 f3 f4 f5 hsf hs2 hs3 hs4 hs5
  have hfam2 : fam ≠ unknownTok := by
    rcases hfam with h | h <;> subst h <;> decide
  rw [hdrStream, hframe]
  simp only [afterLine, hline, hsplit]
  simp [hfam2, hfam, hip1, hip2, hp1, hp2, List.getD]

/-- C1: a well-formed `PROXY TCP4 <ip1> <ip2> <p1> <p2>\r\n` header followed
by arbitrary payload: RemoteAddr reports (ip1, p1) from the header,
LocalAddr reports (ip2, p2), and the subsequent Reads return exactly the
payload bytes in order, nothing lost, duplicated or altered. -/
theorem c1_tcp4_header_resolves_and_reads_payload (u : Bool) (t : Tail)
    (f2 f3 f4 f5 payload : List Char) (a1 a2 : List Nat) (n1 n2 : Int)
    (sizes : List Nat)
    (hs2 : ' ' ∉ f2) (hn2 : '\n' ∉ f2) (hs3 : ' ' ∉ f3) (hn3 : '\n' ∉ f3)
    (hs4 : ' ' ∉ f4) (hn4 : '\n' ∉ f4) (hs5 : ' ' ∉ f5) (hn5 : '\n' ∉ f5)
    (hip1 : goParseIP f2 = some a1) (hip2 : goParseIP f3 = some a2)
    (hp1 : goAtoi f4 = some n1) (hp2 : goAtoi f5 = some n2) :
    (remoteAddrM (newConn u false (hdrStream tcp4Tok f2 f3 f4 f5 payload t))).1
        = AddrVal.fromHeader ⟨a1, n1⟩
      ∧ (localAddrM ((remoteAddrM (newConn u false (hdrStream tcp4Tok f2 f3 f4 f5 payload t))).2)).1
        = AddrVal.fromHeader ⟨a2, n2⟩
      ∧ concatReads
          ((localAddrM ((remoteAddrM (newConn u false (hdrStream tcp4Tok f2 f3 f4 f5 payload t))).2)).2)
          sizes
        = payload.take sizes.sum := by
  have hcp := checkPfx_resolved u false t tcp4Tok f2 f3 f4 f5 payload a1 a2 n1 n2
    (Or.inl rfl) (by decide) hs2 hn2 hs3 hn3 hs4 hn4 hs5 hn5 hip1 hip2 hp1 hp2
  have hret : (checkPfx u false (hdrStream tcp4Tok f2 f3 f4 f5 payload t)).ret = none := by
    rw [hcp]
  have honce := checkPfxOnce_newConn u false (hdrStream tcp4Tok f2 f3 f4 f5 payload t) hret
  rw [hcp] at honce
  simp only at honce
  have hstate : (remoteAddrM (newConn u false (hdrStream tcp4Tok f2 f3 f4 f5 payload t))).2
      = ⟨⟨payload, t⟩, false, false, some ⟨a1, n1⟩, some ⟨a2, n2⟩, none, false, true, u, 1⟩ := by
    rw [remoteAddrM_snd, honce]
  refine ⟨?_, ?_, ?_⟩
  · rw [remoteAddrM, honce]
  · rw [hstate, localAddrM, checkPfxOnce_done _ rfl]
  · rw [hstate, localAddrM_snd, checkPfxOnce_done _ rfl]
    exact concatReads_ok sizes _ rfl rfl

/-- Witness for C1 at a concrete header and payload. -/
theorem c1_witness :
    (remoteAddrM (newConn false false
        (hdrStream tcp4Tok (("1.2.3.4").data) (("5.6.7.8").data) (("80").data) (("81").data)
          (("hi!").data) Tail.eof))).1
        = AddrVal.fromHeader ⟨[0, 0, 0, 0, 0, 0, 0, 0, 0, 0, 255, 255, 1, 2, 3, 4], 80⟩
      ∧ (localAddrM ((remoteAddrM (newConn false false
          (hdrStream tcp4Tok (("1.2.3.4").data) (("5.6.7.8").data) (("80").data) (("81").data)
            (("hi!").data) Tail.eof))).2)).1
        = AddrVal.fromHeader ⟨[0, 0, 0, 0, 0, 0, 0, 0, 0, 0, 255, 255, 5, 6, 7, 8], 81⟩
      ∧ concatReads
          ((localAddrM ((remoteAddrM (newConn false false
            (hdrStream tcp4Tok (("1.2.3.4").data) (("5.6.7.8").data) (("80").data) (("81").data)
              (("hi!").data) Tail.eof))).2)).2)
          [2, 2]
        = (("hi!").data).take ([2, 2].sum) :=
  c1_tcp4_header_resolves_and_reads_payload false Tail.eof
    (("1.2.3.4").data) (("5.6.7.8").data) (("80").data) (("81").data) (("hi!").data)
    [0, 0, 0, 0, 0, 0, 0, 0, 0, 0, 255, 255, 1, 2, 3, 4]
    [0, 0, 0, 0, 0, 0, 0, 0, 0, 0, 255, 255, 5, 6, 7, 8] 80 81 [2, 2]
    (by decide) (by decide) (by decide) (by decide) (by decide) (by decide)
    (by decide) (by decide) (by decide) (by decide) (by decide) (by decide)

end ProxyProto

namespace ProxyProto

/-- C2 (code bug evaluation): on a header whose destination IP fails to
parse after the source fields parsed, the parse error is cached and yet
RemoteAddr returns the header-claimed source address (the source stores
`srcAddr` before parsing the destination fields), not the raw connection
address its own documentation promises; LocalAddr falls back to the raw
address because `dstAddr` was never set. -/
theorem c2_dst_parse_error_remote_addr_from_header :
    (remoteAddrM (newConn false false
        ⟨("PROXY TCP4 1.2.3.4 nope 80 81\r\n").data, Tail.eof⟩)).2.proxyErr
        = some (PErr.invalidDstIP (("nope").data))
      ∧ (remoteAddrM (newConn false false
          ⟨("PROXY TCP4 1.2.3.4 nope 80 81\r\n").data, Tail.eof⟩)).1
        = AddrVal.fromHeader ⟨[0, 0, 0, 0, 0, 0, 0, 0, 0, 0, 255, 255, 1, 2, 3, 4], 80⟩
      ∧ (localAddrM (newConn false false
          ⟨("PROXY TCP4 1.2.3.4 nope 80 81\r\n").data, Tail.eof⟩)).1
        = AddrVal.rawConn := by
  exact ⟨rfl, rfl, rfl⟩

/-- C4 counterexample: a TCP4 header whose source IP is an IPv6 literal and
whose source port is negative parses successfully — no error, nothing
closed, the addresses are stored — refuting the claim that a
family-mismatched IP or a negative port is an Error. -/
theorem c4_counterexample_v6_and_negative_accepted :
    checkPfx false false ⟨("PROXY TCP4 ::1 5.6.7.8 -1 80\r\n").data, Tail.eof⟩
      = ⟨none, none,
          some ⟨[0, 0, 0, 0, 0, 0, 0, 0, 0, 0, 0, 0, 0, 0, 0, 1], -1⟩,
          some ⟨[0, 0, 0, 0, 0, 0, 0, 0, 0, 0, 255, 255, 5, 6, 7, 8], 80⟩,
          false, false, ⟨[], Tail.eof⟩⟩ := by
  rfl

/-- Reduction of the parser on a six-field TCP4/TCP6 header line to the
address-field validation chain, in source order: source IP, source port
(storing `srcAddr`), destination IP, destination port. -/
theorem checkPfx_hdrStream (u b : Bool) (t : Tail)
    (fam f2 f3 f4 f5 payload : List Char)
    (hfam : fam = tcp4Tok ∨ fam = tcp6Tok)
    (hs2 : ' ' ∉ f2) (hn2 : '\n' ∉ f2) (hs3 : ' ' ∉ f3) (hn3 : '\n' ∉ f3)
    (hs4 : ' ' ∉ f4) (hn4 : '\n' ∉ f4) (hs5 : ' ' ∉ f5) (hn5 : '\n' ∉ f5) :
    checkPfx u b (hdrStream fam f2 f3 f4 f5 payload t)
      = (match goParseIP f2 with
        | none => ⟨some (PErr.invalidSrcIP f2), some (PErr.invalidSrcIP f2),
            none, none, b, true, ⟨payload, t⟩⟩
        | some ip1 =>
          match goAtoi f4 with
          | none => ⟨some (PErr.invalidSrcPort f4), some (PErr.invalidSrcPort f4),
              none, none, b, true, ⟨payload, t⟩⟩
          | some port1 =>
            match goParseIP f3 with
            | none => ⟨some (PErr.invalidDstIP f3), some (PErr.invalidDstIP f3),
                some ⟨ip1, port1⟩, none, b, true, ⟨payload, t⟩⟩
            | some ip2 =>
              match goAtoi f5 with
              | none => ⟨some (PErr.invalidDstPort f5), some (PErr.invalidDstPort f5),
                  some ⟨ip1, port1⟩, none, b, true, ⟨payload, t⟩⟩
              | some port2 =>
                ⟨none, none, some ⟨ip1, port1⟩, some ⟨ip2, port2⟩, b, false, ⟨payload, t⟩⟩) := by
  have hnf : '\n' ∉ fam := by
    rcases hfam with h | h <;> subst h <;> decide
  have hsf : ' ' ∉ fam := by
    rcases hfam with h | h <;> subst h <;> decide
  have hnl : '\n' ∉ fam ++ ' ' :: (f2 ++ ' ' :: (f3 ++ ' ' :: (f4 ++ ' ' :: f5))) := by
    simp only [List.mem_append, List.mem_cons]
    rintro (h | h | h)
    · exact hnf h
    · exact absurd h.symm (by decide)
    · rcases h with h | h | h
      · exact hn2 h
      · exact absurd h.symm (by decide)
      · rcases h with h | h | h
        · exact hn3 h
        · exact absurd h.symm (by decide)
        · rcases h with h | h | h
          · exact hn4 h
          · exact absurd h.symm (by decide)
          · exact hn5 h
  have hframe := checkPfx_crlf u b
    (fam ++ ' ' :: (f2 ++ ' ' :: (f3 ++ ' ' :: (f4 ++ ' ' :: f5)))) payload t hnl
  have hline : stripCRLF (sigChars
        ++ (fam ++ ' ' :: (f2 ++ ' ' :: (f3 ++ ' ' :: (f4 ++ ' ' :: f5)))) ++ ['\r', '\n'])
      = sigChars ++ (fam ++ ' ' :: (f2 ++ ' ' :: (f3 ++ ' ' :: (f4 ++ ' ' :: f5)))) := by
    rw [show sigChars ++ (fam ++ ' ' :: (f2 ++ ' ' :: (f3 ++ ' ' :: (f4 ++ ' ' :: f5)))) ++ ['\r', '\n']
        = (sigChars ++ (fam ++ ' ' :: (f2 ++ ' ' :: (f3 ++ ' ' :: (f4 ++ ' ' :: f5))))) ++ ['\r', '\n']
      from by simp, stripCRLF_two]
  have hsplit := splitSp_header fam f2 f3 f4 f5 hsf hs2 hs3 hs4 hs5
  have hfam2 : fam ≠ unknownTok := by
    rcases hfam with h | h <;> subst h <;> decide
  rw [hdrStream, hframe]
  simp only [afterLine, hline, hsplit]
  simp [hfam2, hfam, List.getD]

/-- C4 (amended): on a six-field TCP4/TCP6 header the parser requires
fields 2 and 3 to parse as textual IP literals of either address family
(`net.ParseIP` does not check the literal against the declared family) and
fields 4 and 5 to parse as optionally signed decimal integers
(`strconv.Atoi` accepts negative values); any such failure closes the
underlying connection and yields an Error naming the offending field, the
checks running in the order source IP, source port, destination IP,
destination port. -/
theorem c4_amended_field_validation (u b : Bool) (t : Tail)
    (fam f2 f3 f4 f5 payload : List Char)
    (hfam : fam = tcp4Tok ∨ fam = tcp6Tok)
    (hs2 : ' ' ∉ f2) (hn2 : '\n' ∉ f2) (hs3 : ' ' ∉ f3) (hn3 : '\n' ∉ f3)
    (hs4 : ' ' ∉ f4) (hn4 : '\n' ∉ f4) (hs5 : ' ' ∉ f5) (hn5 : '\n' ∉ f5) :
    (goParseIP f2 = none →
        checkPfx u b (hdrStream fam f2 f3 f4 f5 payload t)
          = ⟨some (PErr.invalidSrcIP f2), some (PErr.invalidSrcIP f2),
              none, none, b, true, ⟨payload, t⟩⟩)
      ∧ (∀ a1, goParseIP f2 = some a1 → goAtoi f4 = none →
          checkPfx u b (hdrStream fam f2 f3 f4 f5 payload t)
            = ⟨some (PErr.invalidSrcPort f4), some (PErr.invalidSrcPort f4),
                none, none, b, true, ⟨payload, t⟩⟩)
      ∧ (∀ a1 n1, goParseIP f2 = some a1 → goAtoi f4 = some n1 → goParseIP f3 = none →
          checkPfx u b (hdrStream fam f2 f3 f4 f5 payload t)
            = ⟨some (PErr.invalidDstIP f3), some (PErr.invalidDstIP f3),
                some ⟨a1, n1⟩, none, b, true, ⟨payload, t⟩⟩)
      ∧ (∀ a1 n1 a2, goParseIP f2 = some a1 → goAtoi f4 = some n1 →
          goParseIP f3 = some a2 → goAtoi f5 = none →
          checkPfx u b (hdrStream fam f2 f3 f4 f5 payload t)
            = ⟨some (PErr.invalidDstPort f5), some (PErr.invalidDstPort f5),
                some ⟨a1, n1⟩, none, b, true, ⟨payload, t⟩⟩)
      ∧ (∀ a1 n1 a2 n2, goParseIP f2 = some a1 → goAtoi f4 = some n1 →
          goParseIP f3 = some a2 → goAtoi f5 = some n2 →
          checkPfx u b (hdrStream fam f2 f3 f4 f5 payload t)
            = ⟨none, none, some ⟨a1, n1⟩, some ⟨a2, n2⟩, b, false, ⟨payload, t⟩⟩) := by
  have hred := checkPfx_hdrStream u b t fam f2 f3 f4 f5 payload hfam
    hs2 hn2 hs3 hn3 hs4 hn4 hs5 hn5
  refine ⟨?_, ?_, ?_, ?_, ?_⟩
  · intro h1
    rw [hred, h1]
  · intro a1 h1 h2
    rw [hred, h1, h2]
  · intro a1 n1 h1 h2 h3
    rw [hred, h1, h2, h3]
  · intro a1 n1 a2 h1 h2 h3 h4
    rw [hred, h1, h2, h3, h4]
  · intro a1 n1 a2 n2 h1 h2 h3 h4
    rw [hred, h1, h2, h3, h4]

/-- Witness for the amended C4: an unparsable source IP yields the
source-ip Error with the connection closed. -/
theorem c4_amended_witness :
    checkPfx false false (hdrStream tcp4Tok (("nope").data) (("5.6.7.8").data)
        (("80").data) (("81").data) [] Tail.eof)
      = ⟨some (PErr.invalidSrcIP (("nope").data)), some (PErr.invalidSrcIP (("nope").data)),
          none, none, false, true, ⟨[], Tail.eof⟩⟩ :=
  (c4_amended_field_validation false false Tail.eof tcp4Tok (("nope").data) (("5.6.7.8").data)
      (("80").data) (("81").data) [] (Or.inl rfl)
      (by decide) (by decide) (by decide) (by decide)
      (by decide) (by decide) (by decide) (by decide)).1 (by decide)

end ProxyProto

namespace ProxyProto

/-- C3: a stream whose bytes differ from the `PROXY ` signature at some
position within the first six bytes is Absent: the parse returns no error,
stores the mismatch note, sets no address, closes nothing and consumes
nothing; RemoteAddr and LocalAddr report the raw connection's own
addresses and every subsequent Read returns the stream's bytes unmodified
from the start. -/
theorem c3_signature_mismatch_passthrough (u : Bool) (src : Source)
    (j : Nat) (sizes : List Nat)
    (hj6 : j < 6) (hjl : j < src.data.length)
    (hne : src.data.getD j ' ' ≠ sigChars.getD j ' ') :
    (checkPfx u false src).ret = none
      ∧ (checkPfx u false src).proxyErr = some PErr.mismatchErr
      ∧ (checkPfx u false src).srcAddr = none
      ∧ (checkPfx u false src).dstAddr = none
      ∧ (checkPfx u false src).closedConn = false
      ∧ (checkPfx u false src).buf = src
      ∧ (remoteAddrM (newConn u false src)).1 = AddrVal.rawConn
      ∧ (localAddrM ((remoteAddrM (newConn u false src)).2)).1 = AddrVal.rawConn
      ∧ concatReads ((remoteAddrM (newConn u false src)).2) sizes
        = src.data.take sizes.sum := by
  have hs : j < sigChars.length := by
    have h6 : sigChars.length = 6 := rfl
    omega
  have hsig := sigLoop_mismatch j src.data sigChars src.tail hjl hs hne
  have hcp : checkPfx u false src
      = ⟨none, some PErr.mismatchErr, none, none, false, false, src⟩ := by
    simp only [checkPfx, hsig]
  have hret : (checkPfx u false src).ret = none := by rw [hcp]
  have honce := checkPfxOnce_newConn u false src hret
  rw [hcp] at honce
  simp only at honce
  refine ⟨hret, by rw [hcp], by rw [hcp], by rw [hcp], by rw [hcp], by rw [hcp], ?_, ?_, ?_⟩
  · rw [remoteAddrM, honce]
  · rw [remoteAddrM_snd, honce, localAddrM, checkPfxOnce_done _ rfl]
  · rw [remoteAddrM_snd, honce]
    exact concatReads_ok sizes _ rfl rfl

/-- Witness for C3 at a concrete non-PROXY stream. -/
theorem c3_witness :
    (checkPfx false false ⟨("HELLO WORLD").data, Tail.eof⟩).ret = none
      ∧ (checkPfx false false ⟨("HELLO WORLD").data, Tail.eof⟩).proxyErr
        = some PErr.mismatchErr
      ∧ (checkPfx false false ⟨("HELLO WORLD").data, Tail.eof⟩).srcAddr = none
      ∧ (checkPfx false false ⟨("HELLO WORLD").data, Tail.eof⟩).dstAddr = none
      ∧ (checkPfx false false ⟨("HELLO WORLD").data, Tail.eof⟩).closedConn = false
      ∧ (checkPfx false false ⟨("HELLO WORLD").data, Tail.eof⟩).buf
        = ⟨("HELLO WORLD").data, Tail.eof⟩
      ∧ (remoteAddrM (newConn false false ⟨("HELLO WORLD").data, Tail.eof⟩)).1
        = AddrVal.rawConn
      ∧ (localAddrM ((remoteAddrM (newConn false false ⟨("HELLO WORLD").data, Tail.eof⟩)).2)).1
        = AddrVal.rawConn
      ∧ concatReads ((remoteAddrM (newConn false false ⟨("HELLO WORLD").data, Tail.eof⟩)).2)
          [4, 7]
        = (("HELLO WORLD").data).take ([4, 7].sum) :=
  c3_signature_mismatch_passthrough false ⟨("HELLO WORLD").data, Tail.eof⟩ 0 [4, 7]
    (by decide) (by decide) (by decide)

/-- C10: ProxySourceAddr distinguishes an accepted `PROXY UNKNOWN` header
from a plain non-proxied stream: a signature mismatch (Absent) yields a nil
address together with the stored mismatch error, while an accepted UNKNOWN
header yields nil address and nil error. -/
theorem c10_proxy_source_addr_distinguishes (u : Bool) (src : Source)
    (payload : List Char) (t : Tail) (j : Nat)
    (hj6 : j < 6) (hjl : j < src.data.length)
    (hne : src.data.getD j ' ' ≠ sigChars.getD j ' ') :
    (proxySourceAddrM (newConn u false src)).1 = (none, some PErr.mismatchErr)
      ∧ (proxySourceAddrM (newConn true false
          ⟨sigChars ++ unknownTok ++ '\r' :: '\n' :: payload, t⟩)).1 = (none, none) := by
  constructor
  · have hs : j < sigChars.length := by
      have h6 : sigChars.length = 6 := rfl
      omega
    have hsig := sigLoop_mismatch j src.data sigChars src.tail hjl hs hne
    have hcp : checkPfx u false src
        = ⟨none, some PErr.mismatchErr, none, none, false, false, src⟩ := by
      simp only [checkPfx, hsig]
    have hret : (checkPfx u false src).ret = none := by rw [hcp]
    have honce := checkPfxOnce_newConn u false src hret
    rw [hcp] at honce
    simp only at honce
    rw [proxySourceAddrM, honce]
  · have hcp : checkPfx true false ⟨sigChars ++ unknownTok ++ '\r' :: '\n' :: payload, t⟩
        = ⟨none, none, none, none, true, false, ⟨payload, t⟩⟩ := by
      have hshape : sigChars ++ unknownTok ++ '\r' :: '\n' :: payload
          = sigChars ++ (unknownTok ++ '\r' :: '\n' :: payload) := by simp
      rw [show (⟨sigChars ++ unknownTok ++ '\r' :: '\n' :: payload, t⟩ : Source)
          = ⟨sigChars ++ unknownTok ++ '\r' :: '\n' :: payload, t⟩ from rfl]
      rw [checkPfx_crlf true false unknownTok payload t (by decide)]
      rfl
    have hret : (checkPfx true false
        ⟨sigChars ++ unknownTok ++ '\r' :: '\n' :: payload, t⟩).ret = none := by rw [hcp]
    have honce := checkPfxOnce_newConn true false _ hret
    rw [hcp] at honce
    simp only at honce
    rw [proxySourceAddrM, honce]

/-- Witness for C10 at concrete streams. -/
theorem c10_witness :
    (proxySourceAddrM (newConn false false ⟨("HELLO").data, Tail.eof⟩)).1
        = (none, some PErr.mismatchErr)
      ∧ (proxySourceAddrM (newConn true false
          ⟨sigChars ++ unknownTok ++ '\r' :: '\n' :: (("data").data), Tail.eof⟩)).1
        = (none, none) :=
  c10_proxy_source_addr_distinguishes false ⟨("HELLO").data, Tail.eof⟩ (("data").data)
    Tail.eof 0 (by decide) (by decide) (by decide)

end ProxyProto

namespace ProxyProto

/-- C7: with a configured header-read timeout, a deadline that elapses
while the signature is still being matched (the available bytes are a
proper prefix of `PROXY `) produces no error — nothing is closed, the bytes
stay buffered, no address is stored, and a Read passes the bytes through —
whereas a deadline that elapses after the full signature matched, while
reading the header line, returns a hard error, closes the connection, and
caches the wrapped error where ProxySourceAddr reports it. -/
theorem c7_timeout_duality (u b u2 b2 : Bool) (d rest2 : List Char) (n m : Nat)
    (hd : d.length < 6) (hpre : d = sigChars.take d.length) (hnl : '\n' ∉ rest2) :
    (checkPfx u b ⟨d, Tail.timeout⟩).ret = none
      ∧ (checkPfx u b ⟨d, Tail.timeout⟩).closedConn = false
      ∧ (checkPfx u b ⟨d, Tail.timeout⟩).srcAddr = none
      ∧ (checkPfx u b ⟨d, Tail.timeout⟩).buf = ⟨d, Tail.timeout⟩
      ∧ (doRead (newConn u b ⟨d, Tail.timeout⟩) n).1 = Except.ok (d.take n)
      ∧ (checkPfx u2 b2 ⟨sigChars ++ rest2, Tail.timeout⟩).ret = some PErr.timeoutErr
      ∧ (checkPfx u2 b2 ⟨sigChars ++ rest2, Tail.timeout⟩).closedConn = true
      ∧ (checkPfx u2 b2 ⟨sigChars ++ rest2, Tail.timeout⟩).proxyErr
        = some (PErr.wrapLine PErr.timeoutErr)
      ∧ (doRead (newConn u2 b2 ⟨sigChars ++ rest2, Tail.timeout⟩) m).1
        = Except.error PErr.timeoutErr
      ∧ ((proxySourceAddrM (newConn u2 b2 ⟨sigChars ++ rest2, Tail.timeout⟩)).1).2
        = some (PErr.wrapLine PErr.timeoutErr) := by
  have hdec : sigChars = d ++ sigChars.drop d.length := by
    conv_lhs => rw [← List.take_append_drop d.length sigChars, ← hpre]
  have hlen : (sigChars.drop d.length).length = 6 - d.length := by
    have h6 : sigChars.length = 6 := rfl
    simp [h6]
  obtain ⟨c, rs, hcrs⟩ : ∃ c rs, sigChars.drop d.length = c :: rs := by
    cases h : sigChars.drop d.length with
    | nil => rw [h] at hlen; simp at hlen; omega
    | cons c rs => exact ⟨c, rs, rfl⟩
  have hsig : sigLoopAux d sigChars Tail.timeout = SigRes.absentTimeout := by
    rw [hdec, hcrs]
    exact sigLoop_short_timeout d rs c
  have hcp : checkPfx u b ⟨d, Tail.timeout⟩
      = ⟨none, some (PErr.wrapPeek PErr.timeoutErr), none, none, b, false,
          ⟨d, Tail.timeout⟩⟩ := by
    simp only [checkPfx, hsig]
  have hret : (checkPfx u b ⟨d, Tail.timeout⟩).ret = none := by rw [hcp]
  have hsig2 : sigLoopAux (sigChars ++ rest2) sigChars Tail.timeout = SigRes.matched :=
    sigLoop_matched sigChars rest2 Tail.timeout
  have hnotin : '\n' ∉ sigChars ++ rest2 := by
    simp only [List.mem_append]
    rintro (h | h)
    · revert h; decide
    · exact hnl h
  have hbrk : breakNL (sigChars ++ rest2) = none := breakNL_none _ hnotin
  have hcp2 : checkPfx u2 b2 ⟨sigChars ++ rest2, Tail.timeout⟩
      = ⟨some PErr.timeoutErr, some (PErr.wrapLine PErr.timeoutErr), none, none, b2, true,
          ⟨[], Tail.timeout⟩⟩ := by
    simp only [checkPfx, hsig2, hbrk]
  have hret2 : (checkPfx u2 b2 ⟨sigChars ++ rest2, Tail.timeout⟩).ret
      = some PErr.timeoutErr := by rw [hcp2]
  have honce2 := checkPfxOnce_newConn_err u2 b2 ⟨sigChars ++ rest2, Tail.timeout⟩
    PErr.timeoutErr hret2 (by decide)
  rw [hcp2] at honce2
  simp only at honce2
  refine ⟨hret, by rw [hcp], by rw [hcp], by rw [hcp], ?_, hret2, by rw [hcp2],
    by rw [hcp2], doRead_newConn_err u2 b2 _ m PErr.timeoutErr hret2, ?_⟩
  · have := doRead_newConn u b ⟨d, Tail.timeout⟩ n hret
    rw [hcp] at this
    simpa using this
  · rw [proxySourceAddrM, honce2]

/-- Witness for C7 at concrete partial-signature and mid-line streams. -/
theorem c7_witness :
    (checkPfx false false ⟨("PRO").data, Tail.timeout⟩).ret = none
      ∧ (checkPfx false false ⟨("PRO").data, Tail.timeout⟩).closedConn = false
      ∧ (checkPfx false false ⟨("PRO").data, Tail.timeout⟩).srcAddr = none
      ∧ (checkPfx false false ⟨("PRO").data, Tail.timeout⟩).buf = ⟨("PRO").data, Tail.timeout⟩
      ∧ (doRead (newConn false false ⟨("PRO").data, Tail.timeout⟩) 2).1
        = Except.ok ((("PRO").data).take 2)
      ∧ (checkPfx false false ⟨sigChars ++ (("TCP4").data), Tail.timeout⟩).ret
        = some PErr.timeoutErr
      ∧ (checkPfx false false ⟨sigChars ++ (("TCP4").data), Tail.timeout⟩).closedConn = true
      ∧ (checkPfx false false ⟨sigChars ++ (("TCP4").data), Tail.timeout⟩).proxyErr
        = some (PErr.wrapLine PErr.timeoutErr)
      ∧ (doRead (newConn false false ⟨sigChars ++ (("TCP4").data), Tail.timeout⟩) 3).1
        = Except.error PErr.timeoutErr
      ∧ ((proxySourceAddrM (newConn false false
          ⟨sigChars ++ (("TCP4").data), Tail.timeout⟩)).1).2
        = some (PErr.wrapLine PErr.timeoutErr) :=
  c7_timeout_duality false false false false (("PRO").data) (("TCP4").data) 2 3
    (by decide) (by decide) (by decide)

/-- C8: over any interleaving of RemoteAddr, LocalAddr, Read,
ProxySourceAddr and Write calls, the parse body runs exactly once — on the
first non-Write call — and the stored outcome (addresses, cached error,
prefer-raw flag) is the one that single execution computed and is never
recomputed or mutated by later calls. -/
theorem c8_parse_exactly_once (u b : Bool) (src : Source) (xs ys : List Op)
    (ht : xs.any isTrig = true) :
    (runOps (newConn u b src) (xs ++ ys)).parseRuns = 1
      ∧ outcomeOf (runOps (newConn u b src) (xs ++ ys))
        = outcomeOf (applyCheck (newConn u b src)).2
      ∧ outcomeOf (runOps (newConn u b src) (xs ++ ys))
        = outcomeOf (runOps (newConn u b src) xs) := by
  obtain ⟨h1, h2, h3⟩ := firstTrig xs (newConn u b src) rfl ht
  obtain ⟨g1, g2, g3⟩ := runDone ys (runOps (newConn u b src) xs) h1
  rw [runOps_append]
  exact ⟨g2.trans h2, g3.trans h3, g3⟩

/-- Witness for C8 at a concrete call interleaving. -/
theorem c8_witness :
    (runOps (newConn false false ⟨("HELLO").data, Tail.eof⟩)
        ([Op.rAddr] ++ [Op.rd 2, Op.pSrc])).parseRuns = 1
      ∧ outcomeOf (runOps (newConn false false ⟨("HELLO").data, Tail.eof⟩)
          ([Op.rAddr] ++ [Op.rd 2, Op.pSrc]))
        = outcomeOf (applyCheck (newConn false false ⟨("HELLO").data, Tail.eof⟩)).2
      ∧ outcomeOf (runOps (newConn false false ⟨("HELLO").data, Tail.eof⟩)
          ([Op.rAddr] ++ [Op.rd 2, Op.pSrc]))
        = outcomeOf (runOps (newConn false false ⟨("HELLO").data, Tail.eof⟩) [Op.rAddr]) :=
  c8_parse_exactly_once false false ⟨("HELLO").data, Tail.eof⟩
    [Op.rAddr] [Op.rd 2, Op.pSrc] (by decide)

/-- C9: a Write call anywhere in a call sequence leaves the whole
connection state — latch, addresses, cached error, buffered reader
position — exactly as it would be without the Write, and delegates its
buffer verbatim to the underlying connection. -/
theorem c9_write_is_frame (c : ConnSt) (b : List Char) (xs ys : List Op) :
    runOps c (xs ++ Op.wr b :: ys) = runOps c (xs ++ ys)
      ∧ writeM (runOps c xs) b = (runOps c xs, b) := by
  constructor
  · rw [runOps_append, runOps_append]
    rfl
  · rfl

end ProxyProto

namespace ProxyProto

/-- C6 counterexample: when RemoteAddr triggers the parse and it fails
(here on an unhandled address type), the error is cached — yet a later Read
does not observe it: `once.Do` skips the closure so Read's local `err`
stays nil, and the Read proceeds against the reader that
`checkPrefixOnce` reset onto the closed connection, returning the
transport's closed-connection error instead of the cached parse error. -/
theorem c6_counterexample_read_after_accessor :
    (remoteAddrM (newConn false false ⟨("PROXY BAD\r\n").data, Tail.eof⟩)).2.proxyErr
        = some (PErr.unhandledType (("BAD").data))
      ∧ (doRead ((remoteAddrM (newConn false false ⟨("PROXY BAD\r\n").data, Tail.eof⟩)).2) 4).1
        = Except.error PErr.connClosedRead
      ∧ (doRead ((remoteAddrM (newConn false false ⟨("PROXY BAD\r\n").data, Tail.eof⟩)).2) 4).1
        ≠ Except.error (PErr.unhandledType (("BAD").data)) := by
  refine ⟨rfl, rfl, ?_⟩
  rw [show (doRead ((remoteAddrM (newConn false false
      ⟨("PROXY BAD\r\n").data, Tail.eof⟩)).2) 4).1
    = Except.error PErr.connClosedRead from rfl]
  intro h
  exact absurd (Except.error.inj h) (by decide)

/-- C6 (amended): a parse error is computed by the single parse execution
and cached in the stored error field; ProxySourceAddr — whenever it is
called, after any interleaving of calls — reports exactly that cached
error, and a Read that itself triggers the parse returns it; but a Read
arriving after another accessor already triggered the parse does not see
the cached error (it reads from the reset buffered reader), and RemoteAddr
never returns an error at all. -/
theorem c6_amended_cached_error (u b : Bool) (src : Source) (ops : List Op)
    (n : Nat) (e : PErr)
    (he : (applyCheck (newConn u b src)).1 = some e) :
    ((proxySourceAddrM (runOps (newConn u b src) ops)).1).2
        = (applyCheck (newConn u b src)).2.proxyErr
      ∧ (doRead (newConn u b src) n).1 = Except.error e := by
  constructor
  · cases ht : ops.any isTrig with
    | true =>
      obtain ⟨h1, h2, h3⟩ := firstTrig ops (newConn u b src) rfl ht
      have hps : ((proxySourceAddrM (runOps (newConn u b src) ops)).1).2
          = (runOps (newConn u b src) ops).proxyErr := by
        rw [show (proxySourceAddrM (runOps (newConn u b src) ops)).1
            = ((checkPfxOnce (runOps (newConn u b src) ops)).srcAddr,
                (checkPfxOnce (runOps (newConn u b src) ops)).proxyErr) from rfl]
        rw [checkPfxOnce_done _ h1]
      rw [hps]
      exact congrArg (fun p => p.2.2.1) h3
    | false =>
      rw [allWr ops (newConn u b src) ht]
      exact checkPfxOnce_proxyErr (newConn u b src) rfl
  · rcases happ : applyCheck (newConn u b src) with ⟨ret, c2⟩
    rw [happ] at he
    simp only at he
    rw [doRead_eq _ _ rfl, happ, he]

/-- Witness for the amended C6 at a concrete malformed header. -/
theorem c6_amended_witness :
    ((proxySourceAddrM (runOps (newConn false false ⟨("PROXY BAD\r\n").data, Tail.eof⟩)
          [Op.rAddr])).1).2
        = (applyCheck (newConn false false ⟨("PROXY BAD\r\n").data, Tail.eof⟩)).2.proxyErr
      ∧ (doRead (newConn false false ⟨("PROXY BAD\r\n").data, Tail.eof⟩) 4).1
        = Except.error (PErr.unhandledType (("BAD").data)) :=
  c6_amended_cached_error false false ⟨("PROXY BAD\r\n").data, Tail.eof⟩
    [Op.rAddr] 4 (PErr.unhandledType (("BAD").data)) (by decide)

end ProxyProto

namespace ProxyProto

/-- C5: for a stream that begins with the full `PROXY ` signature, the
header line's structural validation (the first conjunct frames the parse of
such a stream into the line validation step): fewer than two
space-separated fields is an Error; an `UNKNOWN` family token is valid only
when the unknown-acceptance flag is set and exactly two fields are present,
producing the Unknown outcome, and is otherwise an Error; `TCP4`/`TCP6`
require exactly six fields; any other family token is an Error; and every
one of these Error outcomes closes the underlying connection. -/
theorem c5_structural_validation (u b : Bool) (r payload : List Char) (t : Tail)
    (line : List Char) (rest : Source) (hnl : '\n' ∉ r) :
    checkPfx u b ⟨sigChars ++ r ++ '\r' :: '\n' :: payload, t⟩
        = afterLine u b (sigChars ++ r ++ ['\r', '\n']) ⟨payload, t⟩
      ∧ ((splitSp (stripCRLF line)).length < 2 →
          (afterLine u b line rest).ret = some (PErr.invalidHeader (stripCRLF line))
            ∧ (afterLine u b line rest).closedConn = true)
      ∧ ((splitSp (stripCRLF line)).getD 1 [] = unknownTok →
          (u = true ∧ (splitSp (stripCRLF line)).length = 2 →
              (afterLine u b line rest).ret = none
                ∧ (afterLine u b line rest).proxyErr = none
                ∧ (afterLine u b line rest).srcAddr = none
                ∧ (afterLine u b line rest).useConnAddr = true
                ∧ (afterLine u b line rest).closedConn = false)
            ∧ (¬ (u = true ∧ (splitSp (stripCRLF line)).length = 2) →
                (afterLine u b line rest).ret = some (PErr.invalidUnknown (stripCRLF line))
                  ∧ (afterLine u b line rest).closedConn = true))
      ∧ (((splitSp (stripCRLF line)).getD 1 [] = tcp4Tok
            ∨ (splitSp (stripCRLF line)).getD 1 [] = tcp6Tok) →
          (splitSp (stripCRLF line)).length ≠ 6 →
          (afterLine u b line rest).ret = some (PErr.badPartCount (stripCRLF line))
            ∧ (afterLine u b line rest).closedConn = true)
      ∧ (2 ≤ (splitSp (stripCRLF line)).length →
          (splitSp (stripCRLF line)).getD 1 [] ≠ unknownTok →
          (splitSp (stripCRLF line)).getD 1 [] ≠ tcp4Tok →
          (splitSp (stripCRLF line)).getD 1 [] ≠ tcp6Tok →
          (afterLine u b line rest).ret
              = some (PErr.unhandledType ((splitSp (stripCRLF line)).getD 1 []))
            ∧ (afterLine u b line rest).closedConn = true) := by
  refine ⟨checkPfx_crlf u b r payload t hnl, ?_, ?_, ?_, ?_⟩
  · intro h1
    have hA : afterLine u b line rest
        = ⟨some (PErr.invalidHeader (stripCRLF line)), some (PErr.invalidHeader (stripCRLF line)),
            none, none, b, true, rest⟩ := by
      simp only [afterLine]
      rw [if_pos h1]
    exact ⟨by rw [hA], by rw [hA]⟩
  · intro hu
    have hlen2 : ¬ ((splitSp (stripCRLF line)).length < 2) := by
      intro hh
      have hdflt := List.getD_eq_default (splitSp (stripCRLF line)) ([] : List Char)
        (n := 1) (by omega)
      rw [hdflt] at hu
      exact absurd hu.symm (by decide)
    constructor
    · rintro ⟨hu2, hl2⟩
      have hc2 : ¬ (¬ (u = true) ∨ (splitSp (stripCRLF line)).length ≠ 2) := by
        rw [hu2, hl2]; simp
      have hA : afterLine u b line rest = ⟨none, none, none, none, true, false, rest⟩ := by
        simp only [afterLine]
        rw [if_neg hlen2, if_pos hu, if_neg hc2]
      exact ⟨by rw [hA], by rw [hA], by rw [hA], by rw [hA], by rw [hA]⟩
    · intro hne
      have hc2 : ¬ (u = true) ∨ (splitSp (stripCRLF line)).length ≠ 2 := by
        by_cases h : u = true
        · right
          intro hl
          exact hne ⟨h, hl⟩
        · left; exact h
      have hA : afterLine u b line rest
          = ⟨some (PErr.invalidUnknown (stripCRLF line)), some (PErr.invalidUnknown (stripCRLF line)),
              none, none, b, true, rest⟩ := by
        simp only [afterLine]
        rw [if_neg hlen2, if_pos hu, if_pos hc2]
      exact ⟨by rw [hA], by rw [hA]⟩
  · intro hfam hlen6
    have hlen2 : ¬ ((splitSp (stripCRLF line)).length < 2) := by
      intro hh
      have hdflt := List.getD_eq_default (splitSp (stripCRLF line)) ([] : List Char)
        (n := 1) (by omega)
      rcases hfam with h | h <;> rw [hdflt] at h <;> exact absurd h.symm (by decide)
    have hnu : ¬ ((splitSp (stripCRLF line)).getD 1 [] = unknownTok) := by
      rcases hfam with h | h <;> rw [h] <;> decide
    have hA : afterLine u b line rest
        = ⟨some (PErr.badPartCount (stripCRLF line)), some (PErr.badPartCount (stripCRLF line)),
            none, none, b, true, rest⟩ := by
      simp only [afterLine]
      rw [if_neg hlen2, if_neg hnu, if_pos hfam, if_pos hlen6]
    exact ⟨by rw [hA], by rw [hA]⟩
  · intro hge hne1 hne2 hne3
    have hlen2 : ¬ ((splitSp (stripCRLF line)).length < 2) := by omega
    have hfam : ¬ ((splitSp (stripCRLF line)).getD 1 [] = tcp4Tok
        ∨ (splitSp (stripCRLF line)).getD 1 [] = tcp6Tok) := by
      rintro (h | h)
      · exact hne2 h
      · exact hne3 h
    have hA : afterLine u b line rest
        = ⟨some (PErr.unhandledType ((splitSp (stripCRLF line)).getD 1 [])),
            some (PErr.unhandledType ((splitSp (stripCRLF line)).getD 1 [])),
            none, none, b, true, rest⟩ := by
      simp only [afterLine]
      rw [if_neg hlen2, if_neg hne1, if_neg hfam]
    exact ⟨by rw [hA], by rw [hA]⟩

/-- Witness for C5: a rejected `PROXY UNKNOWN` line (flag unset) and the
frame at a concrete stream. -/
theorem c5_witness :
    checkPfx false false ⟨sigChars ++ unknownTok ++ '\r' :: '\n' :: [], Tail.eof⟩
        = afterLine false false (sigChars ++ unknownTok ++ ['\r', '\n']) ⟨[], Tail.eof⟩
      ∧ (afterLine false false (("PROXY UNKNOWN\r\n").data) ⟨[], Tail.eof⟩).ret
        = some (PErr.invalidUnknown (stripCRLF (("PROXY UNKNOWN\r\n").data)))
      ∧ (afterLine false false (("PROXY UNKNOWN\r\n").data) ⟨[], Tail.eof⟩).closedConn
        = true := by
  have h := c5_structural_validation false false unknownTok [] Tail.eof
    (("PROXY UNKNOWN\r\n").data) ⟨[], Tail.eof⟩ (by decide)
  have h2 := (h.2.2.1 (by decide)).2 (by decide)
  exact ⟨h.1, h2.1, h2.2⟩

end ProxyProto
